import Mathlib

/-!
A verification development for the matrix federation tester
(`main.go` of `matrix-org/matrix-federation-tester`).

The Go source is shallowly embedded: every function under verification
(`Report`, `touchUpReport`, `asReportError`, `enumToString`, `JSONReport`,
`HandleReport`, the `tlsVersions` and `tlsCipherSuites` tables) is translated
into an executable Lean definition.  External collaborators that the source
consumes through a narrow interface — DNS discovery (`LookupServer`), the
TLS dial / key fetch (`FetchKeysDirect`), key verification (`CheckKeys`) and
the SHA-256 digest — are passed to `Report` as explicit function parameters,
exactly as the spec treats them (out-of-scope collaborators).

Machine integers (`uint16`) are modelled as `Nat`; byte strings as
`List Nat`; Go's `error` interface as `Option GoError` (with `none` for the
nil interface value); Go maps as `GoMap`, an association-list model that
keeps the nil-map / initialized-empty-map distinction of Go.
-/

/-- A Go `error` interface value (always non-nil in this type; the nil
interface value is modelled as `none : Option GoError`).  `goError` stands
for an arbitrary error produced by a collaborator, carrying the string its
`Error()` method returns; `reportError` is the `ReportError` struct defined
in `main.go`, whose only field is `Message`. -/
inductive GoError where
  | goError (msg : String)
  | reportError (msg : String)
deriving DecidableEq

/-- The `Error()` method: for a collaborator error it returns the carried
message; for `ReportError` the source returns `e.Message`. -/
def GoError.Error : GoError → String
  | .goError msg => msg
  | .reportError msg => msg

/-- `updateA entries k v` is Go map assignment `m[k] = v` on the underlying
entry list: replace the value at the first occurrence of `k`, or append a new
entry when `k` is absent. -/
def updateA {α β : Type} [DecidableEq α] : List (α × β) → α → β → List (α × β)
  | [], k, v => [(k, v)]
  | (k0, v0) :: rest, k, v =>
    if k0 = k then (k0, v) :: rest else (k0, v0) :: updateA rest k v

/-- `lookupA entries k` is Go map read `m[k]` on the underlying entry list. -/
def lookupA {α β : Type} [DecidableEq α] : List (α × β) → α → Option β
  | [], _ => none
  | (k0, v0) :: rest, k => if k0 = k then some v0 else lookupA rest k

/-- A Go map.  `nil` is the zero value of a map type; `mk entries` is a map
that has been initialized (`make`), holding its entries as an association
list without duplicate keys (every write goes through `updateA`). -/
inductive GoMap (α β : Type) where
  | nil
  | mk (entries : List (α × β))
deriving DecidableEq

namespace GoMap

/-- Go map read `m[k]`: reading from a nil map yields the zero value
(absent). -/
def lookup {α β : Type} [DecidableEq α] : GoMap α β → α → Option β
  | .nil, _ => none
  | .mk entries, k => lookupA entries k

/-- Go map assignment `m[k] = v`.  Assigning into a nil map is a runtime
panic in Go; the source always initializes its maps with `make` before
writing, so that branch is never exercised and is modelled as a no-op. -/
def insert {α β : Type} [DecidableEq α] : GoMap α β → α → β → GoMap α β
  | .nil, _, _ => .nil
  | .mk entries, k, v => .mk (updateA entries k v)

/-- The key set of a Go map, as the list of keys in entry order. -/
def keys {α β : Type} : GoMap α β → List α
  | .nil => []
  | .mk entries => entries.map Prod.fst

/-- `for k, v := range m { m[k] = f v }`: rewrite every value in place,
keeping keys.  Ranging over a nil map performs no iterations, so a nil map
stays nil. -/
def mapValues {α β γ : Type} (f : β → γ) : GoMap α β → GoMap α γ
  | .nil => .nil
  | .mk entries => .mk (entries.map fun p => (p.1, f p.2))

end GoMap

/-- A JSON document, used for the raw server key document and for the
value-level model of `encoding/json` marshalling. -/
inductive Json where
  | null
  | bool (b : Bool)
  | num (n : Int)
  | str (s : String)
  | arr (elems : List Json)
  | obj (fields : List (String × Json))

/-- Field lookup in a marshalled JSON object: the decoding step used to read
a field of the serialized report back out. -/
def Json.getField : Json → String → Option Json
  | .obj fields, name => lookupA fields name
  | _, _ => none

/-- Collaborator data shape (from the external federation library, modelled
from the spec): the per-candidate-host diagnostic entry of a discovery
result — canonical name, resolved addresses, and an optional failure. -/
structure HostResult where
  CName : String
  Addrs : List String
  Error : Option GoError
deriving DecidableEq

/-- Collaborator data shape (from the external federation library, modelled
from the spec): a discovery result — the resolved endpoint addresses for a
server name plus diagnostic detail about how each was obtained (optional
SRV-lookup failure, per-candidate-host diagnostics). -/
structure DNSResult where
  SRVCName : String
  SRVRecords : List String
  SRVError : Option GoError
  Hosts : GoMap String HostResult
  Addrs : List String
deriving DecidableEq

/-- Collaborator data shape (modelled from the spec): the key verification
checks, a mapping from check name to pass/fail outcome, forwarded for
reporting without interpretation. -/
abbrev KeyChecks := List (String × Bool)

/-- Collaborator data shape (modelled from the spec): the fetched server key
document.  The external library carries the raw JSON bytes; they are
modelled here as the parsed structured value. -/
structure ServerKeys where
  Raw : Json

/-- Collaborator data shape: the fields of an x509 certificate that the
source reads (`Raw`, `Subject.CommonName`, `Issuer.CommonName`,
`DNSNames`).  Raw certificate bytes are modelled as `List Nat`. -/
structure Certificate where
  Raw : List Nat
  SubjectCommonName : String
  IssuerCommonName : String
  DNSNames : List String

/-- Collaborator data shape: the fields of a TLS connection state that the
source reads (`PeerCertificates`, `Version`, `CipherSuite`). -/
structure ConnectionState where
  PeerCertificates : List Certificate
  Version : Nat
  CipherSuite : Nat

/-- A `CipherSummary` is a summary of the TLS version and cipher used in a
TLS connection. -/
structure CipherSummary where
  Version : String
  CipherSuite : String
deriving DecidableEq

/-- A `X509CertSummary` is a summary of the information in a X509
certificate.  The fingerprint is the raw digest bytes (`Base64String`). -/
structure X509CertSummary where
  SubjectCommonName : String
  IssuerCommonName : String
  SHA256Fingerprint : List Nat
  DNSNames : List String
deriving DecidableEq

/-- A `ConnectionReport` is information about a connection made to a matrix
server.  `Keys` is the `*json.RawMessage` field: `none` models the nil
pointer of the zero value. -/
structure ConnectionReport where
  Certificates : List X509CertSummary
  Cipher : CipherSummary
  Keys : Option Json
  Checks : KeyChecks
  Ed25519VerifyKeys : GoMap String String
  SHA256TLSFingerprints : List String

/-- A `ServerReport` is a report for a matrix server.  `ConnectionErrors`
values are Go `error` interface values, hence `Option GoError`. -/
structure ServerReport where
  DNSResult : DNSResult
  ConnectionReports : GoMap String ConnectionReport
  ConnectionErrors : GoMap String (Option GoError)

/-- Lowercase hexadecimal rendering of a natural number, as Go's
`fmt.Sprintf("%x", value)` produces for a `uint16`. -/
def hexString (value : Nat) : String :=
  String.mk (Nat.toDigits 16 value)

/-- `enumToString` converts a `uint16` enum into a human readable string
using a fixed mapping.  If no mapping can be found then it returns an
`UNKNOWN[0x%x]` string with the raw enum. -/
def enumToString (names : List (Nat × String)) (value : Nat) : String :=
  match lookupA names value with
  | some name => name
  | none => "UNKNOWN[0x" ++ hexString value ++ "]"

/-- The `tlsVersions` table of `main.go`, with the numeric values of the Go
`crypto/tls` version constants. -/
def tlsVersions : List (Nat × String) :=
  [(0x0300, "SSL 3.0"),
   (0x0301, "TLS 1.0"),
   (0x0302, "TLS 1.1"),
   (0x0303, "TLS 1.2")]

/-- The `tlsCipherSuites` table of `main.go`, with the numeric values of the
Go `crypto/tls` cipher suite constants. -/
def tlsCipherSuites : List (Nat × String) :=
  [(0x0005, "TLS_RSA_WITH_RC4_128_SHA"),
   (0x000a, "TLS_RSA_WITH_3DES_EDE_CBC_SHA"),
   (0x002f, "TLS_RSA_WITH_AES_128_CBC_SHA"),
   (0x0035, "TLS_RSA_WITH_AES_256_CBC_SHA"),
   (0xc007, "TLS_ECDHE_ECDSA_WITH_RC4_128_SHA"),
   (0xc009, "TLS_ECDHE_ECDSA_WITH_AES_128_CBC_SHA"),
   (0xc00a, "TLS_ECDHE_ECDSA_WITH_AES_256_CBC_SHA"),
   (0xc011, "TLS_ECDHE_RSA_WITH_RC4_128_SHA"),
   (0xc012, "TLS_ECDHE_RSA_WITH_3DES_EDE_CBC_SHA"),
   (0xc013, "TLS_ECDHE_RSA_WITH_AES_128_CBC_SHA"),
   (0xc014, "TLS_ECDHE_RSA_WITH_AES_256_CBC_SHA"),
   (0xc02f, "TLS_ECDHE_RSA_WITH_AES_128_GCM_SHA256"),
   (0xc02b, "TLS_ECDHE_ECDSA_WITH_AES_128_GCM_SHA256"),
   (0xc02c, "TLS_ECDHE_ECDSA_WITH_AES_256_GCM_SHA384"),
   (0xc030, "TLS_ECDHE_RSA_WITH_AES_256_GCM_SHA384")]

/-- The type of the `FetchKeysDirect` collaborator:
`(serverName, addr, sni) -> (keys, connState) | error`. -/
abbrev FetchKeys :=
  String → String → String → Except GoError (ServerKeys × ConnectionState)

/-- The type of the `CheckKeys` collaborator:
`(serverName, now, keys, connState) -> (checks, verifyKeys, fingerprints)`.
Time is modelled as `Nat`. -/
abbrev CheckKeys :=
  String → Nat → ServerKeys → ConnectionState → KeyChecks × GoMap String String × List String

/-- The type of the SHA-256 collaborator (`sha256.Sum256`), a digest over
raw bytes. -/
abbrev Sha256 := List Nat → List Nat

/-- The type of the `LookupServer` collaborator:
`serverName -> DNSResult | error`. -/
abbrev LookupServer := String → Except GoError DNSResult

/-- The body of the success branch of `Report`'s loop: build one
`ConnectionReport` from the fetched keys and connection state — certificate
summaries in served order, cipher/version labels via `enumToString`, the
`CheckKeys` results at the report's single `now`, and the raw key document
stored as a `json.RawMessage`. -/
def mkConnectionReport (check : CheckKeys) (sha : Sha256) (now : Nat)
    (serverName : String) (keys : ServerKeys) (connState : ConnectionState) :
    ConnectionReport :=
  let certificates := connState.PeerCertificates.map fun cert =>
    { SubjectCommonName := cert.SubjectCommonName
      IssuerCommonName := cert.IssuerCommonName
      SHA256Fingerprint := sha cert.Raw
      DNSNames := cert.DNSNames }
  let c := check serverName now keys connState
  { Certificates := certificates
    Cipher :=
      { Version := enumToString tlsVersions connState.Version
        CipherSuite := enumToString tlsCipherSuites connState.CipherSuite }
    Keys := some keys.Raw
    Checks := c.1
    Ed25519VerifyKeys := c.2.1
    SHA256TLSFingerprints := c.2.2 }

/-- One iteration of `Report`'s loop over `report.DNSResult.Addrs`: on probe
failure record the error under `ConnectionErrors[addr]` and continue; on
success store the built `ConnectionReport` under
`ConnectionReports[addr]`. -/
def reportStep (fetch : FetchKeys) (check : CheckKeys) (sha : Sha256)
    (now : Nat) (serverName sni : String)
    (report : ServerReport) (addr : String) : ServerReport :=
  match fetch serverName addr sni with
  | .error e =>
    { report with ConnectionErrors := report.ConnectionErrors.insert addr (some e) }
  | .ok (keys, connState) =>
    { report with ConnectionReports :=
        (report.ConnectionReports.insert addr
          (mkConnectionReport check sha now serverName keys connState)) }

/-- `Report` creates a `ServerReport` for a matrix server: look the server
up in DNS (failure aborts the whole operation), initialize both maps with
`make`, sample `now` once (here a parameter, since `time.Now()` is an
external effect), and process every resolved address with `reportStep`. -/
def Report (lookup : LookupServer) (fetch : FetchKeys) (check : CheckKeys)
    (sha : Sha256) (now : Nat) (serverName sni : String) :
    Except GoError ServerReport :=
  match lookup serverName with
  | .error err => .error err
  | .ok dnsResult =>
    .ok (dnsResult.Addrs.foldl (reportStep fetch check sha now serverName sni)
      { DNSResult := dnsResult
        ConnectionReports := .mk []
        ConnectionErrors := .mk [] })

/-- Replace a golang error with an error that is human readable when
serialised as JSON (`asReportError` of `main.go`): a nil error stays nil,
any other error becomes `ReportError{err.Error()}`. -/
def asReportError : Option GoError → Option GoError
  | none => none
  | some e => some (GoError.reportError e.Error)

/-- The body of the host loop in `touchUpReport`: rewrite the embedded
failure of one per-host diagnostic entry and store the entry back. -/
def touchUpHost (hostResult : HostResult) : HostResult :=
  { hostResult with Error := asReportError hostResult.Error }

/-- `touchUpReport` converts all the errors in a `ServerReport` into forms
that will be human readable after JSON serialisation: the SRV error, each
per-host error, and each connection error are passed through
`asReportError`. -/
def ServerReport.touchUpReport (report : ServerReport) : ServerReport :=
  { report with
    DNSResult :=
      { report.DNSResult with
        SRVError := asReportError report.DNSResult.SRVError
        Hosts := report.DNSResult.Hosts.mapValues touchUpHost }
    ConnectionErrors := report.ConnectionErrors.mapValues asReportError }

/-- The standard base64 alphabet. -/
def base64Chars : List Char :=
  "ABCDEFGHIJKLMNOPQRSTUVWXYZabcdefghijklmnopqrstuvwxyz0123456789+/".toList

/-- One base64 digit. -/
def base64Char (n : Nat) : Char := base64Chars.getD n 'A'

/-- Standard base64 encoding of a byte sequence, used when marshalling a
`Base64String` field (modelled from the spec: fingerprints are rendered as
standard base64 on output). -/
def base64Encode : List Nat → String
  | [] => ""
  | [b0] =>
    String.mk [base64Char (b0 / 4), base64Char (b0 % 4 * 16)] ++ "=="
  | [b0, b1] =>
    String.mk [base64Char (b0 / 4), base64Char (b0 % 4 * 16 + b1 / 16),
      base64Char (b1 % 16 * 4)] ++ "="
  | b0 :: b1 :: b2 :: rest =>
    String.mk [base64Char (b0 / 4), base64Char (b0 % 4 * 16 + b1 / 16),
      base64Char (b1 % 16 * 4 + b2 / 64), base64Char (b2 % 64)] ++
      base64Encode rest

/-!
Value-level model of `encoding/json` marshalling for the report types.
`json.Marshal` is modelled as producing the JSON document (the structured
value) rather than its byte rendering; `json.Indent` only reformats
whitespace and is the identity at this level.  Two behaviours of
`encoding/json` matter here and are modelled faithfully:
a `json.RawMessage` is spliced into the output verbatim — as the nested
structured value it parses to, not re-escaped as a string — and a value with
no exported fields (any native Go error) marshals to an empty object, which
is exactly why `touchUpReport` rewrites errors to `ReportError` first.
Go marshals map keys in sorted order; here entry order stands in for it,
which is irrelevant to the properties proved. -/

/-- Marshalling of a Go `error` interface value: nil marshals to `null`, a
native error has no exported fields and marshals to an empty JSON object,
and `ReportError` exposes its `Message` field. -/
def marshalError : Option GoError → Json
  | none => .null
  | some (.goError _) => .obj []
  | some (.reportError msg) => .obj [("Message", .str msg)]

/-- Marshalling of a `*json.RawMessage`: a nil pointer marshals to `null`;
otherwise the raw document is embedded as the nested structured value it
parses to. -/
def marshalRawMessage : Option Json → Json
  | none => .null
  | some doc => doc

/-- Marshalling of a Go map with string keys: a nil map marshals to `null`,
an initialized map to an object. -/
def marshalGoMap {β : Type} (f : β → Json) : GoMap String β → Json
  | .nil => .null
  | .mk entries => .obj (entries.map fun p => (p.1, f p.2))

/-- Marshalling of a `X509CertSummary`. -/
def marshalX509CertSummary (c : X509CertSummary) : Json :=
  .obj [("SubjectCommonName", .str c.SubjectCommonName),
        ("IssuerCommonName", .str c.IssuerCommonName),
        ("SHA256Fingerprint", .str (base64Encode c.SHA256Fingerprint)),
        ("DNSNames", .arr (c.DNSNames.map .str))]

/-- Marshalling of a `CipherSummary`. -/
def marshalCipherSummary (c : CipherSummary) : Json :=
  .obj [("Version", .str c.Version), ("CipherSuite", .str c.CipherSuite)]

/-- Marshalling of the key checks (modelled from the spec: an object of
named pass/fail outcomes). -/
def marshalKeyChecks (ks : KeyChecks) : Json :=
  .obj (ks.map fun p => (p.1, .bool p.2))

/-- Marshalling of a `HostResult`. -/
def marshalHostResult (h : HostResult) : Json :=
  .obj [("CName", .str h.CName),
        ("Addrs", .arr (h.Addrs.map .str)),
        ("Error", marshalError h.Error)]

/-- Marshalling of a `DNSResult`. -/
def marshalDNSResult (d : DNSResult) : Json :=
  .obj [("SRVCName", .str d.SRVCName),
        ("SRVRecords", .arr (d.SRVRecords.map .str)),
        ("SRVError", marshalError d.SRVError),
        ("Hosts", marshalGoMap marshalHostResult d.Hosts),
        ("Addrs", .arr (d.Addrs.map .str))]

/-- Marshalling of a `ConnectionReport`.  The `Keys` field goes through
`marshalRawMessage`: the raw key document is embedded as a nested
structured value. -/
def marshalConnectionReport (c : ConnectionReport) : Json :=
  .obj [("Certificates", .arr (c.Certificates.map marshalX509CertSummary)),
        ("Cipher", marshalCipherSummary c.Cipher),
        ("Keys", marshalRawMessage c.Keys),
        ("Checks", marshalKeyChecks c.Checks),
        ("Ed25519VerifyKeys", marshalGoMap Json.str c.Ed25519VerifyKeys),
        ("SHA256TLSFingerprints", .arr (c.SHA256TLSFingerprints.map .str))]

/-- Marshalling of a `ServerReport`. -/
def marshalServerReport (r : ServerReport) : Json :=
  .obj [("DNSResult", marshalDNSResult r.DNSResult),
        ("ConnectionReports", marshalGoMap marshalConnectionReport r.ConnectionReports),
        ("ConnectionErrors", marshalGoMap marshalError r.ConnectionErrors)]

/-- `JSONReport` generates a JSON formatted report for a matrix server:
build the report, normalize its errors with `touchUpReport`, and marshal it
(`json.Indent` only reformats whitespace and is the identity at the
structured-value level). -/
def JSONReport (lookup : LookupServer) (fetch : FetchKeys) (check : CheckKeys)
    (sha : Sha256) (now : Nat) (serverName sni : String) :
    Except GoError Json :=
  match Report lookup fetch check sha now serverName sni with
  | .error err => .error err
  | .ok results => .ok (marshalServerReport results.touchUpReport)

/-- An inbound HTTP request as `HandleReport` reads it: the method and the
`server_name` and `tls_sni` query parameters (absent parameters read as the
empty string). -/
structure HTTPRequest where
  method : String
  serverName : String
  tlsSNI : String

/-- The observable HTTP response: headers set on the writer, the status
code (Go writes 200 implicitly when the handler finishes without calling
`WriteHeader`), and the body bytes written with `w.Write`, `none` when
nothing was written. -/
structure HTTPResponse where
  headers : List (String × String)
  status : Nat
  body : Option Json

/-- What a run of the handler produces: the HTTP response plus whatever the
handler printed to the server process's standard output via `fmt.Printf`. -/
structure HandlerOutput where
  response : HTTPResponse
  stdout : String

/-- Go's `%q` formatting of a string: the value wrapped in double quotes
(escaping of special characters inside the value is not modelled; no
property here depends on it). -/
def goQuote (s : String) : String := "\"" ++ s ++ "\""

/-- The unrestricted Access-Control headers `HandleReport` sets on every
response. -/
def corsHeaders : List (String × String) :=
  [("Access-Control-Allow-Origin", "*"),
   ("Access-Control-Allow-Methods", "GET, POST, PUT, DELETE, OPTIONS"),
   ("Access-Control-Allow-Headers", "Origin, X-Requested-With, Content-Type, Accept")]

/-- `HandleReport` handles an HTTP request for a JSON report for a matrix
server.  Translated statement by statement from `main.go`: CORS headers
first; `OPTIONS` returns immediately; any other non-`GET` method writes
status 405 and prints "Unsupported method." with `fmt.Printf` (to stdout,
not to the response); otherwise `JSONReport` runs — on error the handler
writes status 500 and prints the error with `fmt.Printf` (again to stdout,
leaving the response body empty), on success it sets `Content-Type`, writes
status 200 and writes the report bytes as the body. -/
def HandleReport (lookup : LookupServer) (fetch : FetchKeys)
    (check : CheckKeys) (sha : Sha256) (now : Nat)
    (req : HTTPRequest) : HandlerOutput :=
  if req.method = "OPTIONS" then
    { response := { headers := corsHeaders, status := 200, body := none }
      stdout := "" }
  else if req.method ≠ "GET" then
    { response := { headers := corsHeaders, status := 405, body := none }
      stdout := "Unsupported method." }
  else
    match JSONReport lookup fetch check sha now req.serverName req.tlsSNI with
    | .error err =>
      { response := { headers := corsHeaders, status := 500, body := none }
        stdout := "Error Generating Report: " ++ goQuote err.Error }
    | .ok result =>
      { response :=
          { headers := corsHeaders ++ [("Content-Type", "application/json")]
            status := 200
            body := some result }
        stdout := "" }

/-! ### Association list and Go map lemmas -/

theorem lookupA_updateA_self {α β : Type} [DecidableEq α]
    (l : List (α × β)) (k : α) (v : β) :
    lookupA (updateA l k v) k = some v := by
  induction l with
  | nil => simp [updateA, lookupA]
  | cons p rest ih =>
    by_cases h : p.1 = k
    · simp [updateA, lookupA, h]
    · simp [updateA, lookupA, h, ih]

theorem lookupA_updateA_ne {α β : Type} [DecidableEq α]
    (l : List (α × β)) (k a : α) (v : β) (h : a ≠ k) :
    lookupA (updateA l k v) a = lookupA l a := by
  have hk : ¬(k = a) := fun hc => h hc.symm
  induction l with
  | nil => simp [updateA, lookupA, hk]
  | cons p rest ih =>
    obtain ⟨k0, v0⟩ := p
    by_cases h1 : k0 = k
    · subst h1
      simp [updateA, lookupA, hk]
    · by_cases h2 : k0 = a
      · subst h2
        simp [updateA, lookupA, h1]
      · simp [updateA, lookupA, h1, h2, ih]

theorem updateA_of_not_mem {α β : Type} [DecidableEq α]
    (l : List (α × β)) (k : α) (v : β) (h : k ∉ l.map Prod.fst) :
    updateA l k v = l ++ [(k, v)] := by
  induction l with
  | nil => rfl
  | cons p rest ih =>
    simp only [List.map_cons, List.mem_cons] at h
    push_neg at h
    have hk : ¬(p.1 = k) := fun hc => h.1 hc.symm
    simp [updateA, hk, ih h.2]

theorem lookupA_eq_none_of_not_mem {α β : Type} [DecidableEq α]
    (l : List (α × β)) (k : α) (h : k ∉ l.map Prod.fst) :
    lookupA l k = none := by
  induction l with
  | nil => rfl
  | cons p rest ih =>
    simp only [List.map_cons, List.mem_cons] at h
    push_neg at h
    have hk : ¬(p.1 = k) := fun hc => h.1 hc.symm
    simp [lookupA, hk, ih h.2]

theorem lookupA_of_mem {α β : Type} [DecidableEq α]
    (l : List (α × β)) (k : α) (v : β)
    (hnd : (l.map Prod.fst).Nodup) (hm : (k, v) ∈ l) :
    lookupA l k = some v := by
  induction l with
  | nil => simp at hm
  | cons p rest ih =>
    obtain ⟨k0, v0⟩ := p
    simp only [List.map_cons, List.nodup_cons] at hnd
    rcases List.mem_cons.mp hm with heq | hrest
    · injection heq with hk hv
      subst hk
      subst hv
      simp [lookupA]
    · have hk : ¬(k0 = k) := by
        intro hc
        subst hc
        exact hnd.1 (List.mem_map_of_mem Prod.fst hrest)
      simp [lookupA, hk, ih hnd.2 hrest]

theorem lookupA_mem_values {α β : Type} [DecidableEq α]
    (l : List (α × β)) (k : α) (v : β) (h : lookupA l k = some v) :
    v ∈ l.map Prod.snd := by
  induction l with
  | nil => simp [lookupA] at h
  | cons p rest ih =>
    obtain ⟨k0, v0⟩ := p
    by_cases h1 : k0 = k
    · simp only [lookupA, if_pos h1] at h
      injection h with h
      simp [h]
    · simp only [lookupA, if_neg h1] at h
      simp only [List.map_cons, List.mem_cons]
      exact Or.inr (ih h)

theorem lookupA_map_snd {α β γ : Type} [DecidableEq α]
    (l : List (α × β)) (f : β → γ) (a : α) :
    lookupA (l.map fun p => (p.1, f p.2)) a = (lookupA l a).map f := by
  induction l with
  | nil => rfl
  | cons p rest ih =>
    by_cases h : p.1 = a
    · simp [lookupA, h]
    · simp [lookupA, h, ih]

namespace GoMap

theorem lookup_insert_self {α β : Type} [DecidableEq α]
    (entries : List (α × β)) (k : α) (v : β) :
    ((GoMap.mk entries).insert k v).lookup k = some v :=
  lookupA_updateA_self entries k v

theorem lookup_insert_ne {α β : Type} [DecidableEq α]
    (m : GoMap α β) (k a : α) (v : β) (h : a ≠ k) :
    (m.insert k v).lookup a = m.lookup a := by
  cases m with
  | nil => rfl
  | mk entries => exact lookupA_updateA_ne entries k a v h

theorem keys_mapValues {α β γ : Type} (f : β → γ) (m : GoMap α β) :
    (m.mapValues f).keys = m.keys := by
  cases m with
  | nil => rfl
  | mk entries => simp [mapValues, keys]

theorem lookup_mapValues {α β γ : Type} [DecidableEq α]
    (f : β → γ) (m : GoMap α β) (a : α) :
    (m.mapValues f).lookup a = (m.lookup a).map f := by
  cases m with
  | nil => rfl
  | mk entries => exact lookupA_map_snd entries f a

theorem mapValues_mapValues {α β γ δ : Type}
    (f : β → γ) (g : γ → δ) (m : GoMap α β) :
    (m.mapValues f).mapValues g = m.mapValues fun b => g (f b) := by
  cases m with
  | nil => rfl
  | mk entries => simp [mapValues]

theorem mapValues_insert {α β γ : Type} [DecidableEq α]
    (f : β → γ) (m : GoMap α β) (k : α) (v : β) :
    (m.insert k v).mapValues f = (m.mapValues f).insert k (f v) := by
  cases m with
  | nil => rfl
  | mk entries =>
    simp only [insert, mapValues, GoMap.mk.injEq]
    induction entries with
    | nil => rfl
    | cons p rest ih =>
      by_cases h : p.1 = k
      · simp [updateA, h]
      · simp [updateA, h, ih]

theorem keys_insert_fresh {α β : Type} [DecidableEq α]
    (entries : List (α × β)) (k : α) (v : β)
    (h : k ∉ (GoMap.mk entries).keys) :
    ((GoMap.mk entries).insert k v).keys = (GoMap.mk entries).keys ++ [k] := by
  simp only [keys] at h
  simp [insert, keys, updateA_of_not_mem entries k v h]

end GoMap

theorem length_filter_add_length_filter_not {α : Type} (p : α → Bool) (l : List α) :
    (l.filter p).length + (l.filter fun a => !(p a)).length = l.length := by
  induction l with
  | nil => rfl
  | cons a t ih => cases hp : p a <;> simp [List.filter_cons, hp, ← ih] <;> omega

/-! ### Error normalization lemmas -/

theorem asReportError_asReportError (e : Option GoError) :
    asReportError (asReportError e) = asReportError e := by
  cases e with
  | none => rfl
  | some x => cases x <;> rfl

theorem asReportError_eq_none_iff (e : Option GoError) :
    asReportError e = none ↔ e = none := by
  cases e <;> simp [asReportError]

theorem asReportError_isNone (e : Option GoError) :
    (asReportError e).isNone = e.isNone := by
  cases e <;> rfl

theorem touchUpHost_touchUpHost (h : HostResult) :
    touchUpHost (touchUpHost h) = touchUpHost h := by
  cases h
  simp [touchUpHost, asReportError_asReportError]

theorem touchUpReport_ConnectionReports (r : ServerReport) :
    r.touchUpReport.ConnectionReports = r.ConnectionReports := rfl

theorem touchUpReport_ConnectionErrors (r : ServerReport) :
    r.touchUpReport.ConnectionErrors = r.ConnectionErrors.mapValues asReportError := rfl

/-- C4: error normalization (`touchUpReport`) is idempotent — applying it
twice yields the same report as applying it once; a message-only failure
(`ReportError`) is left exactly as it is by the normalization of one error
value; and an absent (nil) failure — the SRV error, each per-host error,
each connection error — is absent after normalization precisely when it was
absent before, so no failure value is introduced where none existed. -/
theorem c4_touchUpReport_idempotent (r : ServerReport) :
    r.touchUpReport.touchUpReport = r.touchUpReport
    ∧ (∀ m, asReportError (some (GoError.reportError m)) = some (GoError.reportError m))
    ∧ (r.touchUpReport.DNSResult.SRVError = none ↔ r.DNSResult.SRVError = none)
    ∧ r.touchUpReport.DNSResult.Hosts.mapValues (fun h => h.Error.isNone)
        = r.DNSResult.Hosts.mapValues (fun h => h.Error.isNone)
    ∧ r.touchUpReport.ConnectionErrors.mapValues Option.isNone
        = r.ConnectionErrors.mapValues Option.isNone := by
  refine ⟨?_, ?_, ?_, ?_, ?_⟩
  · cases r with
    | mk dns reports errors =>
      cases dns
      simp [ServerReport.touchUpReport, GoMap.mapValues_mapValues,
        asReportError_asReportError, touchUpHost_touchUpHost]
  · intro m
    rfl
  · simp [ServerReport.touchUpReport, asReportError_eq_none_iff]
  · simp [ServerReport.touchUpReport, GoMap.mapValues_mapValues, touchUpHost,
      asReportError_isNone]
  · simp [ServerReport.touchUpReport, GoMap.mapValues_mapValues,
      asReportError_isNone]

/-- C9: `touchUpReport` modifies only the failure-holding fields of a
`ServerReport`.  The whole `ConnectionReports` map is unchanged; of the
discovery result, the SRV name and records, the resolved addresses, the
host key set and every host entry's non-error fields are unchanged; and the
key set of `ConnectionErrors` is unchanged. -/
theorem c9_touchUpReport_frame (r : ServerReport) :
    r.touchUpReport.ConnectionReports = r.ConnectionReports
    ∧ r.touchUpReport.DNSResult.SRVCName = r.DNSResult.SRVCName
    ∧ r.touchUpReport.DNSResult.SRVRecords = r.DNSResult.SRVRecords
    ∧ r.touchUpReport.DNSResult.Addrs = r.DNSResult.Addrs
    ∧ r.touchUpReport.DNSResult.Hosts.keys = r.DNSResult.Hosts.keys
    ∧ r.touchUpReport.DNSResult.Hosts.mapValues (fun h => (h.CName, h.Addrs))
        = r.DNSResult.Hosts.mapValues (fun h => (h.CName, h.Addrs))
    ∧ r.touchUpReport.ConnectionErrors.keys = r.ConnectionErrors.keys := by
  refine ⟨rfl, rfl, rfl, rfl, ?_, ?_, ?_⟩
  · simp [ServerReport.touchUpReport, GoMap.keys_mapValues]
  · simp [ServerReport.touchUpReport, GoMap.mapValues_mapValues, touchUpHost]
  · simp [ServerReport.touchUpReport, GoMap.keys_mapValues]

/-! ### Report assembly lemmas -/

/-- Whether the probe collaborator succeeds for one address (the branch
taken by `Report`'s loop). -/
def probeOk (fetch : FetchKeys) (serverName sni addr : String) : Bool :=
  match fetch serverName addr sni with
  | .ok _ => true
  | .error _ => false

/-- The loop of `Report` over a list of resolved addresses, starting from a
given partial report. -/
def runAddrs (fetch : FetchKeys) (check : CheckKeys) (sha : Sha256)
    (now : Nat) (serverName sni : String)
    (r : ServerReport) (l : List String) : ServerReport :=
  l.foldl (reportStep fetch check sha now serverName sni) r

theorem Report_ok_eq (lookup : LookupServer) (fetch : FetchKeys)
    (check : CheckKeys) (sha : Sha256) (now : Nat) (serverName sni : String)
    (dns : DNSResult) (hlk : lookup serverName = .ok dns) :
    Report lookup fetch check sha now serverName sni
      = .ok (runAddrs fetch check sha now serverName sni
          { DNSResult := dns
            ConnectionReports := .mk []
            ConnectionErrors := .mk [] } dns.Addrs) := by
  simp [Report, hlk, runAddrs]

section ReportLemmas

variable (fetch : FetchKeys) (check : CheckKeys) (sha : Sha256)
variable (now : Nat) (serverName sni : String)

theorem runAddrs_cons (r : ServerReport) (a : String) (t : List String) :
    runAddrs fetch check sha now serverName sni r (a :: t)
      = runAddrs fetch check sha now serverName sni
          (reportStep fetch check sha now serverName sni r a) t := rfl

theorem reportStep_DNSResult (r : ServerReport) (a : String) :
    (reportStep fetch check sha now serverName sni r a).DNSResult = r.DNSResult := by
  cases hf : fetch serverName a sni with
  | error e => simp [reportStep, hf]
  | ok p =>
    obtain ⟨k, cs⟩ := p
    simp [reportStep, hf]

theorem reportStep_reports_nonnil (r : ServerReport) (a : String)
    (h : r.ConnectionReports ≠ GoMap.nil) :
    (reportStep fetch check sha now serverName sni r a).ConnectionReports ≠ GoMap.nil := by
  cases hf : fetch serverName a sni with
  | error e => simpa [reportStep, hf] using h
  | ok p =>
    obtain ⟨k, cs⟩ := p
    cases hm : r.ConnectionReports with
    | nil => exact absurd hm h
    | mk es => simp [reportStep, hf, hm, GoMap.insert]

theorem reportStep_errors_nonnil (r : ServerReport) (a : String)
    (h : r.ConnectionErrors ≠ GoMap.nil) :
    (reportStep fetch check sha now serverName sni r a).ConnectionErrors ≠ GoMap.nil := by
  cases hf : fetch serverName a sni with
  | error e =>
    cases hm : r.ConnectionErrors with
    | nil => exact absurd hm h
    | mk es => simp [reportStep, hf, hm, GoMap.insert]
  | ok p =>
    obtain ⟨k, cs⟩ := p
    simpa [reportStep, hf] using h

theorem reportStep_reports_lookup_ne (r : ServerReport) (a b : String)
    (hne : b ≠ a) :
    (reportStep fetch check sha now serverName sni r a).ConnectionReports.lookup b
      = r.ConnectionReports.lookup b := by
  cases hf : fetch serverName a sni with
  | error e => simp [reportStep, hf]
  | ok p =>
    obtain ⟨k, cs⟩ := p
    simp [reportStep, hf, GoMap.lookup_insert_ne _ _ _ _ hne]

theorem reportStep_errors_lookup_ne (r : ServerReport) (a b : String)
    (hne : b ≠ a) :
    (reportStep fetch check sha now serverName sni r a).ConnectionErrors.lookup b
      = r.ConnectionErrors.lookup b := by
  cases hf : fetch serverName a sni with
  | error e => simp [reportStep, hf, GoMap.lookup_insert_ne _ _ _ _ hne]
  | ok p =>
    obtain ⟨k, cs⟩ := p
    simp [reportStep, hf]

theorem runAddrs_DNSResult (l : List String) :
    ∀ r : ServerReport,
      (runAddrs fetch check sha now serverName sni r l).DNSResult = r.DNSResult := by
  induction l with
  | nil => intro r; rfl
  | cons a t ih =>
    intro r
    simp only [runAddrs, List.foldl_cons] at *
    rw [ih, reportStep_DNSResult]

theorem runAddrs_reports_nonnil (l : List String) :
    ∀ r : ServerReport, r.ConnectionReports ≠ GoMap.nil →
      (runAddrs fetch check sha now serverName sni r l).ConnectionReports ≠ GoMap.nil := by
  induction l with
  | nil => intro r h; exact h
  | cons a t ih =>
    intro r h
    simp only [runAddrs, List.foldl_cons] at *
    exact ih _ (reportStep_reports_nonnil fetch check sha now serverName sni r a h)

theorem runAddrs_errors_nonnil (l : List String) :
    ∀ r : ServerReport, r.ConnectionErrors ≠ GoMap.nil →
      (runAddrs fetch check sha now serverName sni r l).ConnectionErrors ≠ GoMap.nil := by
  induction l with
  | nil => intro r h; exact h
  | cons a t ih =>
    intro r h
    simp only [runAddrs, List.foldl_cons] at *
    exact ih _ (reportStep_errors_nonnil fetch check sha now serverName sni r a h)

theorem runAddrs_reports_lookup_not_mem (l : List String) (b : String) (hb : b ∉ l) :
    ∀ r : ServerReport,
      (runAddrs fetch check sha now serverName sni r l).ConnectionReports.lookup b
        = r.ConnectionReports.lookup b := by
  induction l with
  | nil => intro r; rfl
  | cons a t ih =>
    intro r
    simp only [List.mem_cons] at hb
    push_neg at hb
    simp only [runAddrs, List.foldl_cons] at *
    rw [ih hb.2, reportStep_reports_lookup_ne fetch check sha now serverName sni r a b hb.1]

theorem runAddrs_errors_lookup_not_mem (l : List String) (b : String) (hb : b ∉ l) :
    ∀ r : ServerReport,
      (runAddrs fetch check sha now serverName sni r l).ConnectionErrors.lookup b
        = r.ConnectionErrors.lookup b := by
  induction l with
  | nil => intro r; rfl
  | cons a t ih =>
    intro r
    simp only [List.mem_cons] at hb
    push_neg at hb
    simp only [runAddrs, List.foldl_cons] at *
    rw [ih hb.2, reportStep_errors_lookup_ne fetch check sha now serverName sni r a b hb.1]

theorem runAddrs_reports_lookup_ok (l : List String) (b : String)
    (keys0 : ServerKeys) (connState0 : ConnectionState)
    (hf : fetch serverName b sni = .ok (keys0, connState0)) :
    ∀ r : ServerReport, b ∈ l → r.ConnectionReports ≠ GoMap.nil →
      (runAddrs fetch check sha now serverName sni r l).ConnectionReports.lookup b
        = some (mkConnectionReport check sha now serverName keys0 connState0) := by
  induction l with
  | nil => intro r hb; simp at hb
  | cons a t ih =>
    intro r hb hnn
    rw [runAddrs_cons]
    by_cases hbt : b ∈ t
    · exact ih _ hbt (reportStep_reports_nonnil fetch check sha now serverName sni r a hnn)
    · have hba : b = a := by
        rcases List.mem_cons.mp hb with h | h
        · exact h
        · exact absurd h hbt
      subst hba
      rw [runAddrs_reports_lookup_not_mem fetch check sha now serverName sni t b hbt]
      cases hm : r.ConnectionReports with
      | nil => exact absurd hm hnn
      | mk es => simp [reportStep, hf, hm, GoMap.insert, GoMap.lookup, lookupA_updateA_self]

theorem runAddrs_errors_lookup_error (l : List String) (b : String) (e : GoError)
    (hf : fetch serverName b sni = .error e) :
    ∀ r : ServerReport, b ∈ l → r.ConnectionErrors ≠ GoMap.nil →
      (runAddrs fetch check sha now serverName sni r l).ConnectionErrors.lookup b
        = some (some e) := by
  induction l with
  | nil => intro r hb; simp at hb
  | cons a t ih =>
    intro r hb hnn
    rw [runAddrs_cons]
    by_cases hbt : b ∈ t
    · exact ih _ hbt (reportStep_errors_nonnil fetch check sha now serverName sni r a hnn)
    · have hba : b = a := by
        rcases List.mem_cons.mp hb with h | h
        · exact h
        · exact absurd h hbt
      subst hba
      rw [runAddrs_errors_lookup_not_mem fetch check sha now serverName sni t b hbt]
      cases hm : r.ConnectionErrors with
      | nil => exact absurd hm hnn
      | mk es => simp [reportStep, hf, hm, GoMap.insert, GoMap.lookup, lookupA_updateA_self]

theorem runAddrs_errors_lookup_of_fetch_ok (l : List String) (b : String)
    (p : ServerKeys × ConnectionState)
    (hf : fetch serverName b sni = .ok p) :
    ∀ r : ServerReport,
      (runAddrs fetch check sha now serverName sni r l).ConnectionErrors.lookup b
        = r.ConnectionErrors.lookup b := by
  induction l with
  | nil => intro r; rfl
  | cons a t ih =>
    intro r
    simp only [runAddrs, List.foldl_cons] at *
    rw [ih]
    by_cases hba : b = a
    · subst hba
      obtain ⟨k, cs⟩ := p
      simp [reportStep, hf]
    · exact reportStep_errors_lookup_ne fetch check sha now serverName sni r a b hba

theorem runAddrs_reports_lookup_of_fetch_error (l : List String) (b : String)
    (e : GoError) (hf : fetch serverName b sni = .error e) :
    ∀ r : ServerReport,
      (runAddrs fetch check sha now serverName sni r l).ConnectionReports.lookup b
        = r.ConnectionReports.lookup b := by
  induction l with
  | nil => intro r; rfl
  | cons a t ih =>
    intro r
    simp only [runAddrs, List.foldl_cons] at *
    rw [ih]
    by_cases hba : b = a
    · subst hba
      simp [reportStep, hf]
    · exact reportStep_reports_lookup_ne fetch check sha now serverName sni r a b hba

theorem runAddrs_reports_of_all_fail (l : List String)
    (hall : ∀ a ∈ l, probeOk fetch serverName sni a = false) :
    ∀ r : ServerReport,
      (runAddrs fetch check sha now serverName sni r l).ConnectionReports
        = r.ConnectionReports := by
  induction l with
  | nil => intro r; rfl
  | cons a t ih =>
    intro r
    simp only [runAddrs, List.foldl_cons] at *
    have ha := hall a (List.mem_cons_self a t)
    rw [ih fun x hx => hall x (List.mem_cons_of_mem a hx)]
    cases hf : fetch serverName a sni with
    | error e => simp [reportStep, hf]
    | ok p => simp [probeOk, hf] at ha

theorem runAddrs_keys (l : List String) :
    ∀ r : ServerReport, l.Nodup →
      (∀ a ∈ l, a ∉ r.ConnectionReports.keys) →
      (∀ a ∈ l, a ∉ r.ConnectionErrors.keys) →
      r.ConnectionReports ≠ GoMap.nil →
      r.ConnectionErrors ≠ GoMap.nil →
      (runAddrs fetch check sha now serverName sni r l).ConnectionReports.keys
          = r.ConnectionReports.keys ++ l.filter (probeOk fetch serverName sni)
      ∧ (runAddrs fetch check sha now serverName sni r l).ConnectionErrors.keys
          = r.ConnectionErrors.keys
            ++ l.filter (fun a => !(probeOk fetch serverName sni a)) := by
  induction l with
  | nil =>
    intro r _ _ _ _ _
    simp [runAddrs]
  | cons a t ih =>
    intro r hnd hfr hfe hnnr hnne
    obtain ⟨hat, hndt⟩ := List.nodup_cons.mp hnd
    obtain ⟨dns, reports, errors⟩ := r
    cases reports with
    | nil => exact absurd rfl hnnr
    | mk es =>
    cases errors with
    | nil => exact absurd rfl hnne
    | mk ee =>
    have hafr : a ∉ es.map Prod.fst := by
      have := hfr a (List.mem_cons_self a t)
      simpa [GoMap.keys] using this
    have hafe : a ∉ ee.map Prod.fst := by
      have := hfe a (List.mem_cons_self a t)
      simpa [GoMap.keys] using this
    rw [runAddrs_cons]
    cases hf : fetch serverName a sni with
    | ok p =>
      obtain ⟨k0, cs0⟩ := p
      have hpa : probeOk fetch serverName sni a = true := by simp [probeOk, hf]
      have hstep : reportStep fetch check sha now serverName sni
          ⟨dns, .mk es, .mk ee⟩ a
          = ⟨dns, .mk (es ++ [(a, mkConnectionReport check sha now serverName k0 cs0)]),
             .mk ee⟩ := by
        simp [reportStep, hf, GoMap.insert, updateA_of_not_mem es a _ hafr]
      rw [hstep]
      have hfr2 : ∀ x ∈ t,
          x ∉ (GoMap.mk (es ++ [(a, mkConnectionReport check sha now serverName k0 cs0)]) :
            GoMap String ConnectionReport).keys := by
        intro x hx
        have h1 := hfr x (List.mem_cons_of_mem a hx)
        have h2 : ¬(x = a) := fun hc => hat (hc ▸ hx)
        simp only [GoMap.keys] at h1 ⊢
        simp only [List.map_append, List.map_cons, List.map_nil, List.mem_append,
          List.mem_singleton]
        push_neg
        exact ⟨h1, h2⟩
      have hfe2 : ∀ x ∈ t,
          x ∉ (GoMap.mk ee : GoMap String (Option GoError)).keys :=
        fun x hx => hfe x (List.mem_cons_of_mem a hx)
      obtain ⟨ihr, ihe⟩ :=
        ih ⟨dns, .mk (es ++ [(a, mkConnectionReport check sha now serverName k0 cs0)]), .mk ee⟩
          hndt hfr2 hfe2 (by simp) (by simp)
      constructor
      · rw [ihr]
        simp [GoMap.keys, List.filter_cons, hpa, List.map_append, List.append_assoc]
      · rw [ihe]
        simp [GoMap.keys, List.filter_cons, hpa]
    | error e =>
      have hpa : probeOk fetch serverName sni a = false := by simp [probeOk, hf]
      have hstep : reportStep fetch check sha now serverName sni
          ⟨dns, .mk es, .mk ee⟩ a
          = ⟨dns, .mk es, .mk (ee ++ [(a, some e)])⟩ := by
        simp [reportStep, hf, GoMap.insert, updateA_of_not_mem ee a _ hafe]
      rw [hstep]
      have hfr2 : ∀ x ∈ t,
          x ∉ (GoMap.mk es : GoMap String ConnectionReport).keys :=
        fun x hx => hfr x (List.mem_cons_of_mem a hx)
      have hfe2 : ∀ x ∈ t,
          x ∉ (GoMap.mk (ee ++ [(a, some e)]) : GoMap String (Option GoError)).keys := by
        intro x hx
        have h1 := hfe x (List.mem_cons_of_mem a hx)
        have h2 : ¬(x = a) := fun hc => hat (hc ▸ hx)
        simp only [GoMap.keys] at h1 ⊢
        simp only [List.map_append, List.map_cons, List.map_nil, List.mem_append,
          List.mem_singleton]
        push_neg
        exact ⟨h1, h2⟩
      obtain ⟨ihr, ihe⟩ :=
        ih ⟨dns, .mk es, .mk (ee ++ [(a, some e)])⟩ hndt hfr2 hfe2 (by simp) (by simp)
      constructor
      · rw [ihr]
        simp [GoMap.keys, List.filter_cons, hpa]
      · rw [ihe]
        simp [GoMap.keys, List.filter_cons, hpa, List.map_append, List.append_assoc]

end ReportLemmas

theorem GoMap.mem_keys_iff_isSome {α β : Type} [DecidableEq α]
    (m : GoMap α β) (k : α) :
    k ∈ m.keys ↔ (m.lookup k).isSome := by
  cases m with
  | nil => simp [keys, lookup]
  | mk entries =>
    simp only [keys, lookup]
    induction entries with
    | nil => simp [lookupA]
    | cons p rest ih =>
      obtain ⟨k0, v0⟩ := p
      by_cases h : k0 = k
      · subst h
        simp [lookupA]
      · have h2 : ¬(k = k0) := fun hc => h hc.symm
        simp [lookupA, h, h2, ih]

/-! ### Concrete collaborator fixtures for counterexamples and witnesses -/

/-- A discovery result that resolves the same address twice. -/
def dnsDup : DNSResult :=
  { SRVCName := "", SRVRecords := [], SRVError := none, Hosts := .mk [], Addrs := ["a", "a"] }

/-- A lookup collaborator returning `dnsDup`. -/
def lookupDup : LookupServer := fun _ => .ok dnsDup

/-- A discovery result with two distinct resolved addresses. -/
def dnsAB : DNSResult :=
  { SRVCName := "", SRVRecords := [], SRVError := none, Hosts := .mk [], Addrs := ["a", "b"] }

/-- A lookup collaborator returning `dnsAB`. -/
def lookupAB : LookupServer := fun _ => .ok dnsAB

/-- A discovery result with no resolved addresses. -/
def dnsEmpty : DNSResult :=
  { SRVCName := "", SRVRecords := [], SRVError := none, Hosts := .mk [], Addrs := [] }

/-- A lookup collaborator returning `dnsEmpty`. -/
def lookupEmpty : LookupServer := fun _ => .ok dnsEmpty

/-- A lookup collaborator that fails. -/
def lookupFail : LookupServer := fun _ => .error (.goError "lookup failure")

/-- A probe collaborator that fails at every address. -/
def fetchFail : FetchKeys := fun _ _ _ => .error (.goError "connection refused")

/-- A concrete raw key document with nested structure. -/
def keyDocW : Json :=
  .obj [("server_name", .str "example.com"),
        ("verify_keys", .obj [("ed25519:auto", .obj [("key", .str "abc123")])])]

/-- Server keys carrying `keyDocW`. -/
def serverKeysW : ServerKeys := { Raw := keyDocW }

/-- A concrete TLS connection state: TLS 1.2 with AES-128-CBC. -/
def connStateW : ConnectionState :=
  { PeerCertificates := [], Version := 0x0303, CipherSuite := 0x002f }

/-- A probe collaborator that succeeds at address "a" and times out at every
other address. -/
def fetchMixed : FetchKeys := fun _ addr _ =>
  if addr = "a" then .ok (serverKeysW, connStateW) else .error (.goError "timeout")

/-- A check collaborator returning empty results. -/
def checkNone : CheckKeys := fun _ _ _ _ => ([], .mk [], [])

/-- An identity digest stand-in for the SHA-256 collaborator. -/
def shaId : Sha256 := fun bs => bs

/-! ### C1: the address partition of the two report maps -/

/-- C1 counterexample: a discovery result may resolve the same address
twice.  With `Addrs = ["a", "a"]` (N = 2 resolved endpoint addresses) and
every probe failing, the assembled report's `ConnectionReports` and
`ConnectionErrors` together hold a single key, not N = 2 keys as the claim
requires. -/
theorem c1_counterexample :
    Except.map (fun r => r.ConnectionReports.keys.length + r.ConnectionErrors.keys.length)
        (Report lookupDup fetchFail checkNone shaId 0 "example.com" "") = .ok 1
    ∧ Except.map (fun r => r.DNSResult.Addrs.length)
        (Report lookupDup fetchFail checkNone shaId 0 "example.com" "") = .ok 2 :=
  ⟨rfl, rfl⟩

/-- C1 (amended): for every discovery result, each resolved address is a key
of exactly one of `ConnectionReports` and `ConnectionErrors` (never both,
never neither, even with duplicated addresses), and when the resolved
addresses are distinct the two key sets together contain exactly N keys. -/
theorem c1_key_partition (lookup : LookupServer) (fetch : FetchKeys)
    (check : CheckKeys) (sha : Sha256) (now : Nat) (serverName sni : String)
    (dns : DNSResult) (hlk : lookup serverName = .ok dns) :
    (∃ r, Report lookup fetch check sha now serverName sni = .ok r)
    ∧ ∀ r, Report lookup fetch check sha now serverName sni = .ok r →
        (∀ a, ¬(a ∈ r.ConnectionReports.keys ∧ a ∈ r.ConnectionErrors.keys))
        ∧ (∀ a, (a ∈ r.ConnectionReports.keys ∨ a ∈ r.ConnectionErrors.keys)
            ↔ a ∈ dns.Addrs)
        ∧ (dns.Addrs.Nodup →
            r.ConnectionReports.keys.length + r.ConnectionErrors.keys.length
              = dns.Addrs.length) := by
  have hrep := Report_ok_eq lookup fetch check sha now serverName sni dns hlk
  refine ⟨⟨_, hrep⟩, ?_⟩
  intro r hr
  rw [hrep] at hr
  injection hr with hr
  subst hr
  set r0 : ServerReport :=
    { DNSResult := dns, ConnectionReports := .mk [], ConnectionErrors := .mk [] } with hr0
  have hmemr : ∀ a, a ∈ (runAddrs fetch check sha now serverName sni r0 dns.Addrs).ConnectionReports.keys
      → a ∈ dns.Addrs ∧ probeOk fetch serverName sni a = true := by
    intro a ha
    rw [GoMap.mem_keys_iff_isSome] at ha
    by_cases hmem : a ∈ dns.Addrs
    · refine ⟨hmem, ?_⟩
      cases hf : fetch serverName a sni with
      | ok p => simp [probeOk, hf]
      | error e =>
        rw [runAddrs_reports_lookup_of_fetch_error fetch check sha now serverName sni
          dns.Addrs a e hf r0] at ha
        simp [hr0, GoMap.lookup, lookupA] at ha
    · rw [runAddrs_reports_lookup_not_mem fetch check sha now serverName sni
        dns.Addrs a hmem r0] at ha
      simp [hr0, GoMap.lookup, lookupA] at ha
  have hmeme : ∀ a, a ∈ (runAddrs fetch check sha now serverName sni r0 dns.Addrs).ConnectionErrors.keys
      → a ∈ dns.Addrs ∧ probeOk fetch serverName sni a = false := by
    intro a ha
    rw [GoMap.mem_keys_iff_isSome] at ha
    by_cases hmem : a ∈ dns.Addrs
    · refine ⟨hmem, ?_⟩
      cases hf : fetch serverName a sni with
      | error e => simp [probeOk, hf]
      | ok p =>
        rw [runAddrs_errors_lookup_of_fetch_ok fetch check sha now serverName sni
          dns.Addrs a p hf r0] at ha
        simp [hr0, GoMap.lookup, lookupA] at ha
    · rw [runAddrs_errors_lookup_not_mem fetch check sha now serverName sni
        dns.Addrs a hmem r0] at ha
      simp [hr0, GoMap.lookup, lookupA] at ha
  refine ⟨?_, ?_, ?_⟩
  · intro a ⟨har, hae⟩
    have h1 := (hmemr a har).2
    have h2 := (hmeme a hae).2
    rw [h1] at h2
    exact Bool.noConfusion h2
  · intro a
    constructor
    · intro h
      rcases h with h | h
      · exact (hmemr a h).1
      · exact (hmeme a h).1
    · intro hmem
      cases hf : fetch serverName a sni with
      | ok p =>
        left
        rw [GoMap.mem_keys_iff_isSome]
        obtain ⟨k0, cs0⟩ := p
        rw [runAddrs_reports_lookup_ok fetch check sha now serverName sni
          dns.Addrs a k0 cs0 hf r0 hmem (by simp [hr0])]
        rfl
      | error e =>
        right
        rw [GoMap.mem_keys_iff_isSome]
        rw [runAddrs_errors_lookup_error fetch check sha now serverName sni
          dns.Addrs a e hf r0 hmem (by simp [hr0])]
        rfl
  · intro hnd
    obtain ⟨h1, h2⟩ := runAddrs_keys fetch check sha now serverName sni dns.Addrs r0
      hnd (by simp [hr0, GoMap.keys]) (by simp [hr0, GoMap.keys])
      (by simp [hr0]) (by simp [hr0])
    rw [h1, h2]
    simp [hr0, GoMap.keys]
    exact length_filter_add_length_filter_not (probeOk fetch serverName sni) dns.Addrs

/-- The report assembled at the C1 witness input: probing "a" succeeds and
probing "b" fails. -/
def wreportC1 : ServerReport :=
  { DNSResult := dnsAB
    ConnectionReports :=
      .mk [("a", mkConnectionReport checkNone shaId 7 "example.com" serverKeysW connStateW)]
    ConnectionErrors := .mk [("b", some (.goError "timeout"))] }

/-- Witness for C1 (amended), at a two-address discovery result with one
probe succeeding and one failing. -/
theorem c1_key_partition_witness :
    Report lookupAB fetchMixed checkNone shaId 7 "example.com" "" = .ok wreportC1
    ∧ (∀ a, ¬(a ∈ wreportC1.ConnectionReports.keys ∧ a ∈ wreportC1.ConnectionErrors.keys))
    ∧ wreportC1.ConnectionReports.keys.length + wreportC1.ConnectionErrors.keys.length
        = dnsAB.Addrs.length := by
  have h := c1_key_partition lookupAB fetchMixed checkNone shaId 7 "example.com" ""
    dnsAB rfl
  have hrep : Report lookupAB fetchMixed checkNone shaId 7 "example.com" "" = .ok wreportC1 := rfl
  obtain ⟨hdisj, hiff, hcount⟩ := h.2 wreportC1 hrep
  exact ⟨hrep, hdisj, hcount (by decide)⟩

/-! ### C2: partial-failure tolerance -/

/-- C2: a probe failure at one address is recorded under
`ConnectionErrors[addr]` and does not abort the remaining iterations —
every other resolved address is still processed, failures recording their
error and successes recording their `ConnectionReport`; if every probe
fails, `ConnectionReports` is empty, every resolved address appears in
`ConnectionErrors`, and `Report` still returns a report (no error). -/
theorem c2_partial_failure_tolerance (lookup : LookupServer) (fetch : FetchKeys)
    (check : CheckKeys) (sha : Sha256) (now : Nat) (serverName sni : String)
    (dns : DNSResult) (hlk : lookup serverName = .ok dns) :
    (∃ r, Report lookup fetch check sha now serverName sni = .ok r)
    ∧ ∀ r, Report lookup fetch check sha now serverName sni = .ok r →
        (∀ addr e, addr ∈ dns.Addrs → fetch serverName addr sni = .error e →
            r.ConnectionErrors.lookup addr = some (some e))
        ∧ (∀ addr keys0 connState0, addr ∈ dns.Addrs →
            fetch serverName addr sni = .ok (keys0, connState0) →
            r.ConnectionReports.lookup addr
              = some (mkConnectionReport check sha now serverName keys0 connState0))
        ∧ ((∀ addr ∈ dns.Addrs, probeOk fetch serverName sni addr = false) →
            r.ConnectionReports = GoMap.mk []
            ∧ ∀ addr ∈ dns.Addrs, ∃ e, fetch serverName addr sni = .error e
                ∧ r.ConnectionErrors.lookup addr = some (some e)) := by
  have hrep := Report_ok_eq lookup fetch check sha now serverName sni dns hlk
  refine ⟨⟨_, hrep⟩, ?_⟩
  intro r hr
  rw [hrep] at hr
  injection hr with hr
  subst hr
  set r0 : ServerReport :=
    { DNSResult := dns, ConnectionReports := .mk [], ConnectionErrors := .mk [] } with hr0
  refine ⟨?_, ?_, ?_⟩
  · intro addr e hmem hf
    exact runAddrs_errors_lookup_error fetch check sha now serverName sni
      dns.Addrs addr e hf r0 hmem (by simp [hr0])
  · intro addr keys0 connState0 hmem hf
    exact runAddrs_reports_lookup_ok fetch check sha now serverName sni
      dns.Addrs addr keys0 connState0 hf r0 hmem (by simp [hr0])
  · intro hall
    refine ⟨?_, ?_⟩
    · rw [runAddrs_reports_of_all_fail fetch check sha now serverName sni dns.Addrs hall r0]
    · intro addr hmem
      cases hf : fetch serverName addr sni with
      | ok p =>
        have := hall addr hmem
        simp [probeOk, hf] at this
      | error e =>
        exact ⟨e, rfl, runAddrs_errors_lookup_error fetch check sha now serverName sni
          dns.Addrs addr e hf r0 hmem (by simp [hr0])⟩

/-- The report assembled at the C2 witness input: both probes fail. -/
def wreportC2 : ServerReport :=
  { DNSResult := dnsAB
    ConnectionReports := .mk []
    ConnectionErrors := .mk [("a", some (.goError "connection refused")),
                             ("b", some (.goError "connection refused"))] }

/-- Witness for C2, at a two-address discovery result where every probe
fails: the report is still produced, `ConnectionReports` is empty, and both
addresses carry their recorded error. -/
theorem c2_partial_failure_witness :
    Report lookupAB fetchFail checkNone shaId 3 "example.com" "" = .ok wreportC2
    ∧ wreportC2.ConnectionReports = GoMap.mk []
    ∧ wreportC2.ConnectionErrors.lookup "a" = some (some (.goError "connection refused"))
    ∧ wreportC2.ConnectionErrors.lookup "b" = some (some (.goError "connection refused")) := by
  have h := c2_partial_failure_tolerance lookupAB fetchFail checkNone shaId 3 "example.com" ""
    dnsAB rfl
  have hrep : Report lookupAB fetchFail checkNone shaId 3 "example.com" "" = .ok wreportC2 := rfl
  obtain ⟨herr, hok, hallfail⟩ := h.2 wreportC2 hrep
  refine ⟨hrep, ?_, ?_, ?_⟩
  · exact (hallfail (by intro addr hmem; fin_cases hmem <;> rfl)).1
  · exact herr "a" (.goError "connection refused") (by decide) rfl
  · exact herr "b" (.goError "connection refused") (by decide) rfl

/-! ### C3: discovery failure aborts the whole operation -/

/-- C3: if the discovery step (`LookupServer`) fails, `Report` returns that
failure and no report value exists (the `Except` carries no `ServerReport`);
no endpoint is probed — the outcome is the same for every probe, check,
digest and time collaborator. -/
theorem c3_discovery_failure_aborts (lookup : LookupServer) (fetch : FetchKeys)
    (check : CheckKeys) (sha : Sha256) (now : Nat) (serverName sni : String)
    (e : GoError) (hlk : lookup serverName = .error e) :
    Report lookup fetch check sha now serverName sni = .error e
    ∧ ∀ (fetch' : FetchKeys) (check' : CheckKeys) (sha' : Sha256) (now' : Nat),
        Report lookup fetch' check' sha' now' serverName sni = .error e := by
  constructor
  · simp [Report, hlk]
  · intro fetch' check' sha' now'
    simp [Report, hlk]

/-- Witness for C3: a failing lookup collaborator makes `Report` fail with
the lookup's error. -/
theorem c3_discovery_failure_witness :
    Report lookupFail fetchMixed checkNone shaId 1 "nonexistent.example" ""
      = .error (.goError "lookup failure") :=
  (c3_discovery_failure_aborts lookupFail fetchMixed checkNone shaId 1
    "nonexistent.example" "" (.goError "lookup failure") rfl).1

/-! ### C10: discovery succeeding with no addresses -/

/-- C10: if discovery succeeds with an empty list of resolved addresses,
`Report` returns a report (no error) whose `ConnectionReports` and
`ConnectionErrors` are both initialized empty maps (`GoMap.mk []`, not the
Go nil map), and no probe is attempted — the outcome is the same for every
probe collaborator. -/
theorem c10_empty_addrs_report (lookup : LookupServer) (fetch : FetchKeys)
    (check : CheckKeys) (sha : Sha256) (now : Nat) (serverName sni : String)
    (dns : DNSResult) (hlk : lookup serverName = .ok dns)
    (hempty : dns.Addrs = []) :
    Report lookup fetch check sha now serverName sni
      = .ok { DNSResult := dns
              ConnectionReports := GoMap.mk []
              ConnectionErrors := GoMap.mk [] }
    ∧ ∀ fetch' : FetchKeys,
        Report lookup fetch' check sha now serverName sni
          = Report lookup fetch check sha now serverName sni := by
  constructor
  · simp [Report, hlk, hempty]
  · intro fetch'
    simp [Report, hlk, hempty]

/-- Witness for C10: with an empty discovery result the report holds the
discovery data and two initialized empty maps, for an arbitrary probe
collaborator (here one that would fail everywhere). -/
theorem c10_empty_addrs_witness :
    Report lookupEmpty fetchFail checkNone shaId 5 "example.com" ""
      = .ok { DNSResult := dnsEmpty
              ConnectionReports := GoMap.mk []
              ConnectionErrors := GoMap.mk [] } :=
  (c10_empty_addrs_report lookupEmpty fetchFail checkNone shaId 5 "example.com" ""
    dnsEmpty rfl rfl).1

/-! ### C5: totality of the enum rendering -/

/-- C5: `enumToString` is total — a code present in the fixed table returns
that table's canonical name, any absent code returns the literal
`UNKNOWN[0x<hex>]` placeholder embedding the raw value in lowercase
hexadecimal, the result is never empty, and the `Version` and `CipherSuite`
fields of the `CipherSummary` built by the report assembler are exactly
these (always populated) strings. -/
theorem c5_enumToString_total (value : Nat) (h16 : value < 65536) :
    (∀ name, (value, name) ∈ tlsVersions → enumToString tlsVersions value = name)
    ∧ (∀ name, (value, name) ∈ tlsCipherSuites → enumToString tlsCipherSuites value = name)
    ∧ (value ∉ tlsVersions.map Prod.fst →
        enumToString tlsVersions value = "UNKNOWN[0x" ++ hexString value ++ "]")
    ∧ (value ∉ tlsCipherSuites.map Prod.fst →
        enumToString tlsCipherSuites value = "UNKNOWN[0x" ++ hexString value ++ "]")
    ∧ enumToString tlsVersions value ≠ ""
    ∧ enumToString tlsCipherSuites value ≠ ""
    ∧ ∀ (check : CheckKeys) (sha : Sha256) (now : Nat) (serverName : String)
        (keys0 : ServerKeys) (connState0 : ConnectionState),
        (mkConnectionReport check sha now serverName keys0 connState0).Cipher
          = { Version := enumToString tlsVersions connState0.Version
              CipherSuite := enumToString tlsCipherSuites connState0.CipherSuite } := by
  refine ⟨?_, ?_, ?_, ?_, ?_, ?_, ?_⟩
  · intro name hmem
    have h := lookupA_of_mem tlsVersions value name (by decide) hmem
    simp [enumToString, h]
  · intro name hmem
    have h := lookupA_of_mem tlsCipherSuites value name (by decide) hmem
    simp [enumToString, h]
  · intro habs
    have h := lookupA_eq_none_of_not_mem tlsVersions value habs
    simp [enumToString, h]
  · intro habs
    have h := lookupA_eq_none_of_not_mem tlsCipherSuites value habs
    simp [enumToString, h]
  · cases hl : lookupA tlsVersions value with
    | none =>
      simp only [enumToString, hl]
      intro hcontra
      have hlen := congrArg String.length hcontra
      rw [String.length_append, String.length_append] at hlen
      have h10 : "UNKNOWN[0x".length = 10 := rfl
      have hrb : "]".length = 1 := rfl
      have h0 : "".length = 0 := rfl
      rw [h10, hrb, h0] at hlen
      omega
    | some name =>
      have hv := lookupA_mem_values tlsVersions value name hl
      have hne : ∀ s ∈ tlsVersions.map Prod.snd, s ≠ "" := by decide
      simp only [enumToString, hl]
      exact hne name hv
  · cases hl : lookupA tlsCipherSuites value with
    | none =>
      simp only [enumToString, hl]
      intro hcontra
      have hlen := congrArg String.length hcontra
      rw [String.length_append, String.length_append] at hlen
      have h10 : "UNKNOWN[0x".length = 10 := rfl
      have hrb : "]".length = 1 := rfl
      have h0 : "".length = 0 := rfl
      rw [h10, hrb, h0] at hlen
      omega
    | some name =>
      have hv := lookupA_mem_values tlsCipherSuites value name hl
      have hne : ∀ s ∈ tlsCipherSuites.map Prod.snd, s ≠ "" := by decide
      simp only [enumToString, hl]
      exact hne name hv
  · intro check sha now serverName keys0 connState0
    rfl

/-- Witness for C5: `0x002f` renders as its canonical cipher name, `0x0303`
as "TLS 1.2", and the absent code `0x1234` as `UNKNOWN[0x1234]`. -/
theorem c5_enumToString_witness :
    enumToString tlsCipherSuites 0x002f = "TLS_RSA_WITH_AES_128_CBC_SHA"
    ∧ enumToString tlsVersions 0x0303 = "TLS 1.2"
    ∧ enumToString tlsCipherSuites 0x1234 = "UNKNOWN[0x1234]" := by
  refine ⟨?_, ?_, ?_⟩
  · exact (c5_enumToString_total 0x002f (by decide)).2.1
      "TLS_RSA_WITH_AES_128_CBC_SHA" (by decide)
  · exact (c5_enumToString_total 0x0303 (by decide)).1 "TLS 1.2" (by decide)
  · have h := (c5_enumToString_total 0x1234 (by decide)).2.2.2.1 (by decide)
    rw [h]
    rfl

/-! ### C6: the raw key document round-trips through serialization -/

theorem getField_marshalGoMap {β : Type} (f : β → Json) (m : GoMap String β)
    (addr : String) (c : β) (h : m.lookup addr = some c) :
    (marshalGoMap f m).getField addr = some (f c) := by
  cases m with
  | nil => simp [GoMap.lookup] at h
  | mk entries =>
    simp only [GoMap.lookup] at h
    simp only [marshalGoMap, Json.getField]
    rw [lookupA_map_snd entries f addr, h]
    rfl

/-- C6: the raw key document held in `ConnectionReport.Keys` is embedded in
the marshalled report as a nested structured value, not a re-escaped
string: decoding the serialized (normalized) report at
`ConnectionReports → address → Keys` yields a value structurally equal to
the original key document. -/
theorem c6_keys_roundtrip (r : ServerReport) (addr : String)
    (c : ConnectionReport) (doc : Json)
    (hc : r.ConnectionReports.lookup addr = some c)
    (hk : c.Keys = some doc) :
    (((marshalServerReport r.touchUpReport).getField "ConnectionReports").bind
        (fun j => j.getField addr)).bind (fun j => j.getField "Keys") = some doc := by
  have h1 : (marshalServerReport r.touchUpReport).getField "ConnectionReports"
      = some (marshalGoMap marshalConnectionReport r.ConnectionReports) := rfl
  rw [h1]
  show ((marshalGoMap marshalConnectionReport r.ConnectionReports).getField addr).bind
      (fun j => j.getField "Keys") = some doc
  rw [getField_marshalGoMap marshalConnectionReport r.ConnectionReports addr c hc]
  show (marshalConnectionReport c).getField "Keys" = some doc
  have h2 : (marshalConnectionReport c).getField "Keys"
      = some (marshalRawMessage c.Keys) := rfl
  rw [h2, hk]
  rfl

/-- Witness for C6: the nested key document `keyDocW` stored at address "a"
of the C1 witness report is read back unchanged from the marshalled
report. -/
theorem c6_keys_roundtrip_witness :
    wreportC1.ConnectionReports.lookup "a"
        = some (mkConnectionReport checkNone shaId 7 "example.com" serverKeysW connStateW)
    ∧ (((marshalServerReport wreportC1.touchUpReport).getField "ConnectionReports").bind
        (fun j => j.getField "a")).bind (fun j => j.getField "Keys") = some keyDocW :=
  ⟨rfl, c6_keys_roundtrip wreportC1 "a"
    (mkConnectionReport checkNone shaId 7 "example.com" serverKeysW connStateW)
    keyDocW rfl rfl⟩

/-! ### C7: the HTTP handler's behaviour when report assembly fails -/

/-- C7 (behaviour of the code at the failing input): when discovery fails,
`JSONReport` returns the failure and the handler writes status 500 — but
the error description is printed with `fmt.Printf` to the server process's
standard output, and the HTTP response body stays empty.  The spec's claim
that a short plaintext description of the failure is in the response body
does not hold on this code. -/
theorem c7_error_response_evaluation :
    (HandleReport lookupFail fetchFail checkNone shaId 0
        { method := "GET", serverName := "bad.example", tlsSNI := "" }).response.status = 500
    ∧ (HandleReport lookupFail fetchFail checkNone shaId 0
        { method := "GET", serverName := "bad.example", tlsSNI := "" }).response.body = none
    ∧ (HandleReport lookupFail fetchFail checkNone shaId 0
        { method := "GET", serverName := "bad.example", tlsSNI := "" }).stdout
        = "Error Generating Report: " ++ goQuote "lookup failure"
    ∧ JSONReport lookupFail fetchFail checkNone shaId 0 "bad.example" ""
        = .error (.goError "lookup failure") :=
  ⟨rfl, rfl, rfl, rfl⟩

/-! ### C8: determinism up to the single sampled verification time -/

/-- Erase the verification outputs (`Checks`, `Ed25519VerifyKeys`,
`SHA256TLSFingerprints` — the only fields computed from the verification
time) of one `ConnectionReport`, for stating determinism up to time. -/
def scrubConnectionReport (c : ConnectionReport) : ConnectionReport :=
  { c with Checks := [], Ed25519VerifyKeys := .mk [], SHA256TLSFingerprints := [] }

/-- Erase the verification outputs of every connection entry of a report. -/
def scrubVerification (r : ServerReport) : ServerReport :=
  { r with ConnectionReports := r.ConnectionReports.mapValues scrubConnectionReport }

theorem scrubVerification_eq_iff (r1 r2 : ServerReport) :
    scrubVerification r1 = scrubVerification r2
      ↔ (r1.DNSResult = r2.DNSResult
        ∧ r1.ConnectionReports.mapValues scrubConnectionReport
            = r2.ConnectionReports.mapValues scrubConnectionReport
        ∧ r1.ConnectionErrors = r2.ConnectionErrors) := by
  obtain ⟨d1, p1, e1⟩ := r1
  obtain ⟨d2, p2, e2⟩ := r2
  simp [scrubVerification]

theorem scrub_mkConnectionReport (check : CheckKeys) (sha : Sha256)
    (now1 now2 : Nat) (serverName : String) (k : ServerKeys) (cs : ConnectionState) :
    scrubConnectionReport (mkConnectionReport check sha now1 serverName k cs)
      = scrubConnectionReport (mkConnectionReport check sha now2 serverName k cs) := rfl

theorem scrubVerification_reportStep (fetch : FetchKeys) (check : CheckKeys)
    (sha : Sha256) (now1 now2 : Nat) (serverName sni : String) (a : String)
    (r1 r2 : ServerReport) (h : scrubVerification r1 = scrubVerification r2) :
    scrubVerification (reportStep fetch check sha now1 serverName sni r1 a)
      = scrubVerification (reportStep fetch check sha now2 serverName sni r2 a) := by
  rw [scrubVerification_eq_iff] at h ⊢
  obtain ⟨hd, hp, he⟩ := h
  cases hf : fetch serverName a sni with
  | error e =>
    refine ⟨?_, ?_, ?_⟩
    · simp [reportStep, hf, hd]
    · simp [reportStep, hf, hp]
    · simp [reportStep, hf, he]
  | ok p =>
    obtain ⟨k0, cs0⟩ := p
    refine ⟨?_, ?_, ?_⟩
    · simp [reportStep, hf, hd]
    · simp only [reportStep, hf]
      rw [GoMap.mapValues_insert, GoMap.mapValues_insert, hp,
        scrub_mkConnectionReport check sha now1 now2 serverName k0 cs0]
    · simp [reportStep, hf, he]

theorem scrubVerification_runAddrs (fetch : FetchKeys) (check : CheckKeys)
    (sha : Sha256) (now1 now2 : Nat) (serverName sni : String) (l : List String) :
    ∀ r1 r2 : ServerReport, scrubVerification r1 = scrubVerification r2 →
      scrubVerification (runAddrs fetch check sha now1 serverName sni r1 l)
        = scrubVerification (runAddrs fetch check sha now2 serverName sni r2 l) := by
  induction l with
  | nil => intro r1 r2 h; exact h
  | cons a t ih =>
    intro r1 r2 h
    rw [runAddrs_cons fetch check sha now1 serverName sni r1 a t,
      runAddrs_cons fetch check sha now2 serverName sni r2 a t]
    exact ih _ _ (scrubVerification_reportStep fetch check sha now1 now2
      serverName sni a r1 r2 h)

theorem scrubVerification_touchUpReport (r1 r2 : ServerReport)
    (h : scrubVerification r1 = scrubVerification r2) :
    scrubVerification r1.touchUpReport = scrubVerification r2.touchUpReport := by
  rw [scrubVerification_eq_iff] at h ⊢
  obtain ⟨hd, hp, he⟩ := h
  refine ⟨?_, ?_, ?_⟩
  · simp [ServerReport.touchUpReport, hd]
  · simpa [ServerReport.touchUpReport] using hp
  · simp [ServerReport.touchUpReport, he]

/-- C8: report building is deterministic up to verification time.  The
verification time is sampled once per report and passed to every endpoint's
key verification, so two runs with identical discovery and probe results
that differ only in `now` produce reports — and marshalled serializations
of the normalized reports — that are equal outside the verification output
fields, and each successfully probed address's entry is built with the
run's single `now`. -/
theorem c8_single_now_determinism (lookup : LookupServer) (fetch : FetchKeys)
    (check : CheckKeys) (sha : Sha256) (now1 now2 : Nat) (serverName sni : String)
    (dns : DNSResult) (hlk : lookup serverName = .ok dns) :
    Except.map scrubVerification (Report lookup fetch check sha now1 serverName sni)
      = Except.map scrubVerification (Report lookup fetch check sha now2 serverName sni)
    ∧ Except.map (fun r => marshalServerReport (scrubVerification r.touchUpReport))
        (Report lookup fetch check sha now1 serverName sni)
      = Except.map (fun r => marshalServerReport (scrubVerification r.touchUpReport))
        (Report lookup fetch check sha now2 serverName sni)
    ∧ ∀ addr keys0 connState0, addr ∈ dns.Addrs →
        fetch serverName addr sni = .ok (keys0, connState0) →
        Except.map (fun r => r.ConnectionReports.lookup addr)
            (Report lookup fetch check sha now1 serverName sni)
          = .ok (some (mkConnectionReport check sha now1 serverName keys0 connState0))
        ∧ Except.map (fun r => r.ConnectionReports.lookup addr)
            (Report lookup fetch check sha now2 serverName sni)
          = .ok (some (mkConnectionReport check sha now2 serverName keys0 connState0)) := by
  have h1 := Report_ok_eq lookup fetch check sha now1 serverName sni dns hlk
  have h2 := Report_ok_eq lookup fetch check sha now2 serverName sni dns hlk
  have hscrub := scrubVerification_runAddrs fetch check sha now1 now2 serverName sni
    dns.Addrs
    { DNSResult := dns, ConnectionReports := .mk [], ConnectionErrors := .mk [] }
    { DNSResult := dns, ConnectionReports := .mk [], ConnectionErrors := .mk [] } rfl
  refine ⟨?_, ?_, ?_⟩
  · rw [h1, h2]
    simp only [Except.map]
    rw [hscrub]
  · rw [h1, h2]
    simp only [Except.map]
    rw [congrArg marshalServerReport (scrubVerification_touchUpReport _ _ hscrub)]
  · intro addr keys0 connState0 hmem hf
    constructor
    · rw [h1]
      simp only [Except.map]
      rw [runAddrs_reports_lookup_ok fetch check sha now1 serverName sni
        dns.Addrs addr keys0 connState0 hf _ hmem (by simp)]
    · rw [h2]
      simp only [Except.map]
      rw [runAddrs_reports_lookup_ok fetch check sha now2 serverName sni
        dns.Addrs addr keys0 connState0 hf _ hmem (by simp)]

/-- A check collaborator whose output depends on the verification time. -/
def checkNow : CheckKeys :=
  fun _ now _ _ => ([("verified_at_seven", decide (now = 7))], .mk [], [])

/-- Witness for C8: two runs at times 7 and 8 with a time-sensitive check
collaborator have equal scrubbed reports, and each run's entry for address
"a" carries the check output at that run's single time. -/
theorem c8_single_now_witness :
    Except.map scrubVerification (Report lookupAB fetchMixed checkNow shaId 7 "example.com" "")
      = Except.map scrubVerification (Report lookupAB fetchMixed checkNow shaId 8 "example.com" "")
    ∧ Except.map (fun r => r.ConnectionReports.lookup "a")
          (Report lookupAB fetchMixed checkNow shaId 7 "example.com" "")
        = .ok (some (mkConnectionReport checkNow shaId 7 "example.com" serverKeysW connStateW))
    ∧ Except.map (fun r => r.ConnectionReports.lookup "a")
          (Report lookupAB fetchMixed checkNow shaId 8 "example.com" "")
        = .ok (some (mkConnectionReport checkNow shaId 8 "example.com" serverKeysW connStateW)) := by
  have h := c8_single_now_determinism lookupAB fetchMixed checkNow shaId 7 8
    "example.com" "" dnsAB rfl
  obtain ⟨hs, hm, hl⟩ := h
  obtain ⟨ha7, ha8⟩ := hl "a" serverKeysW connStateW (by decide) rfl
  exact ⟨hs, ha7, ha8⟩
